import Mathlib

/-!
Verification of the stytra frame-production pipeline
(`stytra/hardware/video/__init__.py` and `stytra/gui/framerate_viewer.py`).

The acquisition loop of `CameraSource.run` / `VideoFileSource.run` is embedded
shallowly: per-iteration behaviour becomes pure functions over explicit state,
Python `None` becomes `Option`, exceptions become `Except`, and wall-clock
times become rationals.  The `RingBuffer` class lives in
`stytra/hardware/video/ring_buffer.py`, which is not part of the sources at
hand; its operations are modelled from the specification (section 4.1).
-/

/-- Frame payload: one acquired image, abstracted to an identifier.  A value of
type `Item` is a Python object that may be `None` (`none` here), as returned by
`cam.read()` on a transient failure. -/
abbrev Item := Option Nat

/-- Exceptions that the embedded loop bodies can raise. -/
inductive Err where
  | emptyHistory
  | attributeError
  | indexError
deriving DecidableEq

/-- Modelled from the spec: `RingBuffer` (stytra/hardware/video/ring_buffer.py,
not among the available sources) per section 4.1: `capacity` slots, a write
cursor and a logical read cursor; a slot holding `none` has never been
written. -/
structure RingBuffer where
  slots : List (Option Item)
  writeIdx : Nat
  readIdx : Nat
deriving DecidableEq

/-- Modelled from the spec: `create(capacity)` allocates `capacity` empty
slots, both cursors at zero. -/
def RingBuffer.create (capacity : Nat) : RingBuffer :=
  ⟨List.replicate capacity none, 0, 0⟩

/-- Modelled from the spec: the configured length of the buffer. -/
def RingBuffer.length (rb : RingBuffer) : Nat :=
  rb.slots.length

/-- Modelled from the spec: `put(frame)` stores at the write cursor and
advances it circularly, overwriting the oldest entry once full; never fails. -/
def RingBuffer.put (rb : RingBuffer) (item : Item) : RingBuffer :=
  ⟨rb.slots.set rb.writeIdx (some item), (rb.writeIdx + 1) % rb.slots.length, rb.readIdx⟩

/-- Modelled from the spec: `get()` reads at the logical read cursor and
advances it circularly; fails (`ValueError`, `none` here) if no frame has ever
been written at that slot, leaving the cursor unchanged. -/
def RingBuffer.get (rb : RingBuffer) : Option (Item × RingBuffer) :=
  match rb.slots.get? rb.readIdx with
  | some (some item) => some (item, ⟨rb.slots, rb.writeIdx, (rb.readIdx + 1) % rb.slots.length⟩)
  | _ => none

/-- Modelled from the spec: `get_most_recent()` returns the last frame written
(the slot just behind the write cursor), or fails if none exists yet. -/
def RingBuffer.getMostRecent (rb : RingBuffer) : Option Item :=
  match rb.slots.get? ((rb.writeIdx + rb.slots.length - 1) % rb.slots.length) with
  | some (some item) => some item
  | _ => none

/-- Control-state fields of `CameraSource` consulted by the loop body
(`self.state.paused`, `self.state.replay`, `self.state.replay_fps`,
`self.state.ring_buffer_length`), per the control contract of spec section 6.
`CameraControlParameters` defaults (lines 353-374): `replay = True`,
`replay_fps = 15`, `ring_buffer_length = 600`; `paused` defaults to false per
the spec's control contract. -/
structure CamCtrl where
  paused : Bool
  replay : Bool
  replayFps : ℚ
  ringBufferLength : Nat
deriving DecidableEq

/-- Default control state of a freshly constructed `CameraSource`. -/
def camCtrlInit : CamCtrl :=
  ⟨false, true, 15, 600⟩

/-- A control message drained from `control_queue` (spec section 6 names). -/
inductive CtrlMsg where
  | paused (b : Bool)
  | replay (b : Bool)
  | replayFps (v : ℚ)
  | ringBufferLength (n : Nat)
  | cameraParam
deriving DecidableEq

/-- Application of one drained control update to the control state
(`self.state.values = param_dict`, line 154); camera-only parameters such as
exposure and gain are forwarded to `cam.set` and do not affect the loop
state. -/
def applyCtrl (c : CamCtrl) : CtrlMsg → CamCtrl
  | .paused b => { c with paused := b }
  | .replay b => { c with replay := b }
  | .replayFps v => { c with replayFps := v }
  | .ringBufferLength n => { c with ringBufferLength := n }
  | .cameraParam => c

/-- Pacing of lines 176-181 (camera replay), 257-260 and 312-315 (file
source): with no previous mark (`prt is None`) nothing is slept; otherwise
`extrat = delta_t - (now - prt)` is slept only when positive.  The returned
value is the slept duration, `0` meaning no sleep. -/
def computeDelay (delta_t : ℚ) (prt : Option ℚ) (now : ℚ) : ℚ :=
  match prt with
  | none => 0
  | some p =>
    let extrat := delta_t - (now - p)
    if 0 < extrat then extrat else 0

/-- Observable result of one pass through the mode branch of
`CameraSource.run` (lines 169-190). -/
structure IterOutput where
  ringBuffer : RingBuffer
  prt : Option ℚ
  framePuts : List Item
  messages : List String
  sleep : ℚ
deriving DecidableEq

/-- Mode branch of `CameraSource.run`, lines 169-190.  `arr` is the value of
`self.cam.read()` (post-rotation; `rotation` defaults to `False`), `qsize` the
current `frame_queue.queue.qsize()`, `ncons` the value of `self.n_consumers`,
`now` the value of `time.process_time()` at the pacing point.
Paused branch: `frame_queue.put(ring_buffer.get_most_recent())`, no `try`, so
an empty history raises.  Replay branch: the `ValueError` from
`ring_buffer.get()` is caught and ignored.  Live branch: unconditional
`ring_buffer.put(arr)`, `prt = None`, then the admission check
`qsize < n_consumers + 2` decides between enqueue and a dropped-frame
warning. -/
def modeBranch (c : CamCtrl) (rb : RingBuffer) (prt : Option ℚ) (arr : Item)
    (qsize ncons : Nat) (now : ℚ) : Except Err IterOutput :=
  if c.paused = true then
    match rb.getMostRecent with
    | some m => .ok ⟨rb, prt, [m], [], 0⟩
    | none => .error .emptyHistory
  else if c.replay = true ∧ 0 < c.replayFps then
    let got := rb.get
    let rb2 := match got with
      | some (_, rb2) => rb2
      | none => rb
    let puts := match got with
      | some (f, _) => [f]
      | none => []
    let slp := computeDelay (1 / c.replayFps) prt now
    .ok ⟨rb2, some (now + slp), puts, [], slp⟩
  else
    let rb2 := rb.put arr
    if arr ≠ none ∧ c.paused = false then
      if qsize < ncons + 2 then
        .ok ⟨rb2, none, [arr], [], 0⟩
      else
        .ok ⟨rb2, none, [], ["W:Dropped frame"], 0⟩
    else
      .ok ⟨rb2, none, [], [], 0⟩

/-- A state in which the mode branch takes its Live arm: not paused, and not
(replaying with positive replay rate) — the `else` of lines 169-182. -/
def isLive (c : CamCtrl) : Prop :=
  c.paused = false ∧ ¬(c.replay = true ∧ 0 < c.replayFps)

instance (c : CamCtrl) : Decidable (isLive c) := by
  unfold isLive; infer_instance

/-- A sample Live-mode control state. -/
def ctrlLive : CamCtrl :=
  ⟨false, false, 0, 2⟩

/-- Ring-buffer (re)creation check of lines 164-165:
`if self.ring_buffer is None or self.state.ring_buffer_length != self.state.ring_buffer.length:`.
When no buffer exists the left disjunct short-circuits and a fresh buffer of
the configured length is created.  When a buffer exists, the right operand
reads `self.state.ring_buffer`: the control state `CameraControlParameters`
(same file, lines 353-374) declares no `ring_buffer` attribute, so the access
raises `AttributeError`. -/
def ringBufferCheck (rb : Option RingBuffer) (configuredLength : Nat) :
    Except Err RingBuffer :=
  match rb with
  | none => .ok (RingBuffer.create configuredLength)
  | some _ => .error .attributeError

/-- External inputs consumed by one iteration of `CameraSource.run`: the kill
flag sampled at the top, the control messages drained this iteration, the
result of `cam.read()`, the pending-item count of the output queue, and the
process time at the pacing point. -/
structure IterInput where
  killSet : Bool
  controls : List CtrlMsg
  readResult : Item
  qsize : Nat
  now : ℚ
deriving DecidableEq

/-- One full iteration of the `while True` body of `CameraSource.run` (lines
142-190): drain and apply controls, read a frame, run the ring-buffer
recreation check, then the mode branch.  `update_framerate()` is
observability-only and not modelled. -/
def cameraIteration (c : CamCtrl) (rb : Option RingBuffer) (prt : Option ℚ)
    (ncons : Nat) (inp : IterInput) :
    Except Err (CamCtrl × RingBuffer × Option ℚ) := do
  let c2 := inp.controls.foldl applyCtrl c
  let rb2 ← ringBufferCheck rb c2.ringBufferLength
  let out ← modeBranch c2 rb2 prt inp.readResult inp.qsize ncons inp.now
  return (c2, out.ringBuffer, out.prt)

/-- How a run of `CameraSource.run` ended. -/
inductive ExitKind where
  | killed
  | excepted (e : Err)
deriving DecidableEq

/-- Exit record of a run: how it ended, and whether `self.cam.release()`
(line 192) executed.  `release` stands after the `while` loop with no
`try`/`finally`, so it runs after a `break` (kill signal) but not when an
exception propagates out of the loop body. -/
structure ExitInfo where
  kind : ExitKind
  released : Bool
deriving DecidableEq

/-- Run of `CameraSource.run`'s loop over a finite schedule of per-iteration
inputs; `none` means the schedule was exhausted with the loop still
running. -/
def runCamera (ncons : Nat) : CamCtrl → Option RingBuffer → Option ℚ →
    List IterInput → Option ExitInfo
  | _, _, _, [] => none
  | c, rb, prt, inp :: rest =>
    if inp.killSet then
      some ⟨.killed, true⟩
    else
      match cameraIteration c rb prt ncons inp with
      | .error e => some ⟨.excepted e, false⟩
      | .ok (c2, rb2, prt2) => runCamera ncons c2 (some rb2) prt2 rest

/-- Constructor state of `VideoSource.__init__` (lines 70-77).  The
`n_consumers` argument is accepted but line 77 assigns the literal `1`. -/
structure VideoSourceState where
  rotation : Bool
  nConsumers : Nat
deriving DecidableEq

/-- Embedding of `VideoSource.__init__(rotation, max_mbytes_queue,
n_consumers)`: note `self.n_consumers = 1` on line 77. -/
def videoSourceInit (rotation : Bool) (maxMbytesQueue : Nat)
    (nConsumers : Nat) : VideoSourceState :=
  ⟨rotation, 1⟩

/-- A control message for `VideoFileSource.run` (lines 244-252 and
297-308). -/
inductive FileCtrlMsg where
  | framerate (v : ℚ)
  | offset (v : Nat)
  | paused (b : Bool)
deriving DecidableEq

/-- Control-relevant state of the h5 branch of `VideoFileSource.run`:
`delta_t`, `self.offset`, `self.paused`, and the loop variable `i_frame`
(the replay read cursor of that branch). -/
structure H5Ctrl where
  deltaT : ℚ
  offset : Nat
  paused : Bool
  iFrame : Nat
deriving DecidableEq

/-- Control handling of the h5 branch, lines 245-252: `framerate` updates
`delta_t`; `offset` is stored only when the value differs from the current
offset (and never touches `i_frame`); `paused` is stored. -/
def applyH5Ctrl (s : H5Ctrl) : FileCtrlMsg → H5Ctrl
  | .framerate v => { s with deltaT := 1 / v }
  | .offset v => if v ≠ s.offset then { s with offset := v } else s
  | .paused b => { s with paused := b }

/-- Control-relevant state of the cv2 branch of `VideoFileSource.run`:
`delta_t`, `self.offset`, `self.paused`, and the capture's read position
(`cv2.CAP_PROP_POS_FRAMES`, the replay read cursor of that branch). -/
structure Cv2Ctrl where
  deltaT : ℚ
  offset : Nat
  paused : Bool
  capPos : Nat
deriving DecidableEq

/-- Control handling of the cv2 branch, lines 300-308: `offset` repositions
the capture (`cap.set(cv2.CAP_PROP_POS_FRAMES, value)`) and stores the new
offset only when the value differs from the current offset. -/
def applyCv2Ctrl (s : Cv2Ctrl) : FileCtrlMsg → Cv2Ctrl
  | .framerate v => { s with deltaT := 1 / v }
  | .offset v => if v ≠ s.offset then { s with capPos := v, offset := v } else s
  | .paused b => { s with paused := b }

/-- Outcome of a bounded run of the h5 branch loop. -/
inductive H5Outcome where
  | finished (emitted : List Nat)
  | raised (e : Err) (emitted : List Nat)
  | running (emitted : List Nat)
deriving DecidableEq

/-- Loop of the h5 branch of `VideoFileSource.run` (lines 237-271) in the
scenario the claim fixes: kill signal never set, control queue empty.  Each
iteration puts `frames[i_frame]` on the frame queue (`IndexError` when out of
bounds), increments `i_frame` unless paused, and at `i_frame ==
frames.shape[0]` either wraps to `offset` (`loop=True`) or breaks cleanly
(`loop=False`).  Pacing (lines 257-260, see `computeDelay`) only sleeps and
does not affect emission or termination, so it is not threaded here.  `fuel`
bounds the number of iterations examined. -/
def h5RunAux (frames : List Nat) (lp : Bool) (offset : Nat) (paused : Bool) :
    Nat → Nat → List Nat → H5Outcome
  | 0, _, acc => .running acc
  | fuel + 1, iFrame, acc =>
    match frames.get? iFrame with
    | none => .raised .indexError acc
    | some f =>
      let acc2 := acc ++ [f]
      let i2 := if paused then iFrame else iFrame + 1
      if i2 = frames.length then
        if lp then
          h5RunAux frames lp offset paused fuel offset acc2
        else
          .finished acc2
      else
        h5RunAux frames lp offset paused fuel i2 acc2

/-- Run of the h5 branch from `i_frame = self.offset` (line 235) with an
empty accumulator. -/
def h5Run (frames : List Nat) (lp : Bool) (offset : Nat) (fuel : Nat) :
    H5Outcome :=
  h5RunAux frames lp offset false fuel offset []

/-- Embedding of `framerate_limits` (stytra/gui/framerate_viewer.py, lines
12-21).  `framerates[0]` raises `IndexError` on an empty sequence (`none`
here); otherwise the fold mirrors the loop body `if fr < ll: ll = fr` /
`if fr > ul: ul = fr` started from `min(framerates[0], goal)` and
`max(goal, framerates[0])`. -/
def framerate_limits (framerates : List ℚ) (goal_framerate : ℚ) :
    Option (ℚ × ℚ) :=
  match framerates with
  | [] => none
  | f0 :: _ =>
    some (framerates.foldl
      (fun p fr => (if fr < p.1 then fr else p.1, if p.2 < fr then fr else p.2))
      (min f0 goal_framerate, max goal_framerate f0))

/-- C3: the pacing delay slept before the next emission equals
max(0, target interval − elapsed since the last mark); if processing already
took at least the interval no sleep occurs; an unset mark gives no delay, and
the Live arm resets the mark to `None` so the next emission after leaving
Live mode is immediate. -/
theorem pacing_delay_max_zero (t m now : ℚ) :
    computeDelay t (some m) now = max 0 (t - (now - m)) ∧
    computeDelay t none now = 0 ∧
    (t ≤ now - m → computeDelay t (some m) now = 0) ∧
    (∀ (c : CamCtrl) (rb : RingBuffer) (prt : Option ℚ) (arr : Item)
      (qsize ncons : Nat) (now2 : ℚ) (out : IterOutput), isLive c →
      modeBranch c rb prt arr qsize ncons now2 = .ok out → out.prt = none) := by
  refine ⟨?_, rfl, ?_, ?_⟩
  · simp only [computeDelay]
    rcases lt_or_le 0 (t - (now - m)) with h | h
    · rw [if_pos h, max_eq_right h.le]
    · rw [if_neg (not_lt.mpr h), max_eq_left h]
  · intro h
    simp only [computeDelay]
    rw [if_neg (by linarith)]
  · intro c rb prt arr qsize ncons now2 out hl hm
    obtain ⟨hp, hr⟩ := hl
    simp only [modeBranch, hp, Bool.false_eq_true, if_false, if_neg hr] at hm
    split_ifs at hm <;> (injection hm with h; subst h; rfl)

/-- C3 witness: interval 2 with mark 1 at time 5 (elapsed 4 ≥ 2) sleeps 0. -/
theorem pacing_delay_max_zero_witness : computeDelay 2 (some 1) 5 = 0 :=
  (pacing_delay_max_zero 2 1 5).2.2.1 (by norm_num)

/-- C1: in Live mode, with the output queue holding at least
`n_consumers + 2` pending items, the produced frame is not enqueued (the
producer checked the size first, no blocking push is modelled), a
"W:Dropped frame" warning is emitted, and the ring buffer still receives the
frame. -/
theorem live_saturated_drop_policy (c : CamCtrl) (rb : RingBuffer)
    (prt : Option ℚ) (f : Nat) (qsize ncons : Nat) (now : ℚ)
    (hl : isLive c) (hq : ncons + 2 ≤ qsize) :
    modeBranch c rb prt (some f) qsize ncons now =
      .ok ⟨rb.put (some f), none, [], ["W:Dropped frame"], 0⟩ := by
  obtain ⟨hp, hr⟩ := hl
  rw [modeBranch, if_neg (by simp [hp]), if_neg hr,
    if_pos ⟨Option.some_ne_none f, hp⟩, if_neg (not_lt.mpr hq)]

/-- C1 witness: a saturated queue (3 pending, threshold 1 + 2) drops frame 7
but the ring buffer receives it. -/
theorem live_saturated_drop_policy_witness :
    modeBranch ctrlLive (RingBuffer.create 2) none (some 7) 3 1 0 =
      .ok ⟨(RingBuffer.create 2).put (some 7), none, [], ["W:Dropped frame"], 0⟩ :=
  live_saturated_drop_policy ctrlLive (RingBuffer.create 2) none 7 3 1 0
    (by decide) (by decide)

/-- C2: when both `paused` and `replay` are true the iteration behaves as
Paused — it forwards the ring buffer's most recent frame, leaves the buffer
(and its cursors) and the pacing mark untouched — and not as Replay, because
the Paused branch is checked first. -/
theorem paused_precedence_over_replay (c : CamCtrl) (rb : RingBuffer)
    (prt : Option ℚ) (arr : Item) (qsize ncons : Nat) (now : ℚ) (m : Item)
    (hp : c.paused = true) (hr : c.replay = true)
    (hm : rb.getMostRecent = some m) :
    modeBranch c rb prt arr qsize ncons now = .ok ⟨rb, prt, [m], [], 0⟩ := by
  simp only [modeBranch, hp, if_true, hm]

/-- C2 witness: paused and replaying over a one-frame history forwards that
frame and changes nothing. -/
theorem paused_precedence_over_replay_witness :
    modeBranch ⟨true, true, 15, 2⟩ ((RingBuffer.create 2).put (some 7)) (some 1)
      (some 9) 0 1 5 =
      .ok ⟨(RingBuffer.create 2).put (some 7), some 1, [some 7], [], 0⟩ :=
  paused_precedence_over_replay ⟨true, true, 15, 2⟩
    ((RingBuffer.create 2).put (some 7)) (some 1) (some 9) 0 1 5 (some 7)
    rfl rfl rfl

/-- C4 counterexample: a `None` read in Live mode does skip forwarding, but it
does not leave the ring buffer as it was — `put(None)` runs unconditionally,
storing `None` and advancing the write cursor, so the buffer differs from the
pre-read buffer. -/
theorem none_read_buffer_changed :
    modeBranch ctrlLive (RingBuffer.create 2) none none 0 1 0 =
      .ok ⟨(RingBuffer.create 2).put none, none, [], [], 0⟩ ∧
    (RingBuffer.create 2).put none ≠ RingBuffer.create 2 :=
  ⟨rfl, by decide⟩

/-- C4 amended: a `None` read in Live mode skips forwarding to the output
queue (no enqueue, no warning), but the ring buffer is still written:
`ring_buffer.put(arr)` executes with `arr = None`, storing `None` at the
write cursor and advancing it. -/
theorem none_read_still_written (c : CamCtrl) (rb : RingBuffer)
    (prt : Option ℚ) (qsize ncons : Nat) (now : ℚ) (hl : isLive c) :
    modeBranch c rb prt none qsize ncons now =
      .ok ⟨rb.put none, none, [], [], 0⟩ := by
  obtain ⟨hp, hr⟩ := hl
  simp only [modeBranch, hp, Bool.false_eq_true, if_false, if_neg hr]
  rw [if_neg (by simp)]

/-- C4 amended witness: a concrete Live iteration with a failed read. -/
theorem none_read_still_written_witness :
    modeBranch ctrlLive (RingBuffer.create 3) none none 0 1 0 =
      .ok ⟨(RingBuffer.create 3).put none, none, [], [], 0⟩ :=
  none_read_still_written ctrlLive (RingBuffer.create 3) none 0 1 0 (by decide)

/-- C6: once a ring buffer exists, the recreation check of lines 164-165
raises `AttributeError` — its right operand reads `self.state.ring_buffer`,
an attribute `CameraControlParameters` does not declare — instead of keeping
the buffer; shown at the configuration of a second loop iteration where the
configured length 600 equals the existing buffer's length. -/
theorem ring_buffer_check_attribute_error :
    ringBufferCheck (some (RingBuffer.create 600)) 600 =
      .error .attributeError ∧
    (RingBuffer.create 600).length = 600 :=
  ⟨rfl, by rw [RingBuffer.create, RingBuffer.length]; exact List.length_replicate 600 none⟩

/-- C7: the admission threshold does not follow the constructor argument:
`VideoSource.__init__` assigns `self.n_consumers = 1` (line 77) regardless of
the `n_consumers` argument, so after constructing with `n_consumers = 3` a
Live frame meeting 3 pending items is dropped although 3 < 3 + 2. -/
theorem n_consumers_threshold_mismatch :
    (videoSourceInit false 100 3).nConsumers = 1 ∧
    3 < 3 + 2 ∧
    modeBranch ctrlLive (RingBuffer.create 2) none (some 7) 3
      (videoSourceInit false 100 3).nConsumers 0 =
      .ok ⟨(RingBuffer.create 2).put (some 7), none, [], ["W:Dropped frame"], 0⟩ :=
  ⟨rfl, by decide, rfl⟩

/-- C5 counterexample: a run whose single iteration applies a `paused=True`
control update forwards from the freshly created empty ring buffer; the
uncaught empty-history `ValueError` propagates out of the loop and
`self.cam.release()` (line 192, after the `while`, with no `try`/`finally`)
never runs: the run exits with `released = false`. -/
theorem release_skipped_on_exception :
    runCamera 1 camCtrlInit none none
      [⟨false, [.ringBufferLength 2, .paused true], some 5, 0, 0⟩] =
      some ⟨.excepted .emptyHistory, false⟩ := rfl

/-- C5 amended: `release()` runs exactly on the normal exit path — every run
that terminates via the kill signal has released the camera, and every run
that terminates because an exception escaped the loop body has not. -/
theorem release_only_on_kill (ncons : Nat) (c : CamCtrl)
    (rb : Option RingBuffer) (prt : Option ℚ) (inputs : List IterInput)
    (info : ExitInfo) (h : runCamera ncons c rb prt inputs = some info) :
    (info.kind = .killed → info.released = true) ∧
    (∀ e, info.kind = .excepted e → info.released = false) := by
  induction inputs generalizing c rb prt with
  | nil => simp [runCamera] at h
  | cons inp rest ih =>
    rw [runCamera] at h
    split_ifs at h with hk
    · injection h with h2
      subst h2
      exact ⟨fun _ => rfl, fun e he => nomatch he⟩
    · cases hc : cameraIteration c rb prt ncons inp with
      | error e =>
        rw [hc] at h
        injection h with h2
        subst h2
        exact ⟨fun hkind => (nomatch hkind), fun e2 _ => rfl⟩
      | ok s =>
        rw [hc] at h
        exact ih s.1 (some s.2.1) s.2.2 h

/-- C5 amended witness: a run killed at its first iteration has released the
camera. -/
theorem release_only_on_kill_witness :
    (⟨ExitKind.killed, true⟩ : ExitInfo).released = true :=
  (release_only_on_kill 1 camCtrlInit none none [⟨true, [], none, 0, 0⟩]
    ⟨.killed, true⟩ rfl).1 rfl

/-- Helper for C8: running the non-looping h5 loop from a valid index with
exactly the remaining number of iterations as fuel finishes cleanly, emitting
the remaining frames in order. -/
theorem h5RunAux_noloop_drop (frames : List Nat) (offset : Nat) :
    ∀ (fuel i : Nat) (acc : List Nat), fuel = frames.length - i →
      i < frames.length →
      h5RunAux frames false offset false fuel i acc =
        .finished (acc ++ frames.drop i) := by
  intro fuel
  induction fuel with
  | zero => intro i acc hf hi; omega
  | succ n ih =>
    intro i acc hf hi
    rw [h5RunAux, List.get?_eq_getElem?, List.getElem?_eq_getElem hi]
    simp only [if_false, Bool.false_eq_true]
    by_cases hend : i + 1 = frames.length
    · rw [if_pos hend, List.drop_eq_getElem_cons hi, hend, List.drop_length]
    · rw [if_neg hend]
      rw [ih (i + 1) (acc ++ [frames[i]]) (by omega) (by omega)]
      rw [List.drop_eq_getElem_cons hi, List.append_assoc, List.singleton_append]

/-- C8: with `loop=False` and `offset=0` over a non-empty file, the h5 loop
emits exactly the file's frames, in order, and then terminates cleanly via
`break` — no further frame and no exception at end-of-stream. -/
theorem file_noloop_emits_all (frames : List Nat) (h : frames ≠ []) :
    h5Run frames false 0 frames.length = .finished frames := by
  have hlen : 0 < frames.length := List.length_pos.mpr h
  rw [h5Run, h5RunAux_noloop_drop frames 0 frames.length 0 [] (by omega) hlen]
  simp

/-- C8 witness: a three-frame file is replayed as frames 0, 1, 2 and the loop
finishes. -/
theorem file_noloop_emits_all_witness :
    h5Run [10, 20, 30] false 0 3 = .finished [10, 20, 30] :=
  file_noloop_emits_all [10, 20, 30] (by decide)

/-- C9: an `offset` control update carrying the current offset is a no-op in
both file branches — the control state, and in particular the cv2 capture
position (that branch's replay read cursor), is left unchanged — and the cv2
cursor is repositioned only by a value that differs from the current offset;
the h5 branch never moves its read cursor `i_frame` on an offset update. -/
theorem offset_update_idempotent (s : Cv2Ctrl) (t : H5Ctrl) (v : Nat) :
    (v = s.offset → applyCv2Ctrl s (.offset v) = s) ∧
    ((applyCv2Ctrl s (.offset v)).capPos ≠ s.capPos → v ≠ s.offset) ∧
    (v = t.offset → applyH5Ctrl t (.offset v) = t) ∧
    (applyH5Ctrl t (.offset v)).iFrame = t.iFrame := by
  refine ⟨fun hv => ?_, fun hcap hv => ?_, fun hv => ?_, ?_⟩
  · rw [applyCv2Ctrl, if_neg (by simp [hv])]
  · exact hcap (by rw [applyCv2Ctrl, if_neg (by simp [hv])])
  · rw [applyH5Ctrl, if_neg (by simp [hv])]
  · rw [applyH5Ctrl]
    split_ifs <;> rfl

/-- C9 witness: at current offset 4 and cursor 9, an `offset=4` update leaves
the cv2 state untouched. -/
theorem offset_update_idempotent_witness :
    applyCv2Ctrl ⟨1, 4, false, 9⟩ (.offset 4) = ⟨1, 4, false, 9⟩ :=
  (offset_update_idempotent ⟨1, 4, false, 9⟩ ⟨1, 0, false, 0⟩ 4).1 rfl

/-- Helper: a `min`-fold is bounded by its initial value. -/
theorem foldl_min_le_init (l : List ℚ) : ∀ a : ℚ, l.foldl min a ≤ a := by
  induction l with
  | nil => intro a; exact le_refl a
  | cons x xs ih =>
    intro a
    exact le_trans (ih (min a x)) (min_le_left a x)

/-- Helper: a `min`-fold is bounded by every list element. -/
theorem foldl_min_le_mem (l : List ℚ) :
    ∀ (a x : ℚ), x ∈ l → l.foldl min a ≤ x := by
  induction l with
  | nil => intro a x hx; cases hx
  | cons y ys ih =>
    intro a x hx
    rcases List.mem_cons.mp hx with h | h
    · subst h
      exact le_trans (foldl_min_le_init ys (min a x)) (min_le_right a x)
    · exact ih (min a y) x h

/-- Helper: a `min`-fold returns its initial value or a list element. -/
theorem foldl_min_mem (l : List ℚ) :
    ∀ a : ℚ, l.foldl min a = a ∨ l.foldl min a ∈ l := by
  induction l with
  | nil => intro a; exact Or.inl rfl
  | cons x xs ih =>
    intro a
    rcases ih (min a x) with h | h
    · rcases min_choice a x with hm | hm
      · exact Or.inl (by rw [List.foldl_cons, h, hm])
      · exact Or.inr (by rw [List.foldl_cons, h, hm]; exact List.mem_cons_self x xs)
    · exact Or.inr (List.mem_cons_of_mem x h)

/-- Helper: a `max`-fold is bounded below by its initial value. -/
theorem foldl_max_ge_init (l : List ℚ) : ∀ a : ℚ, a ≤ l.foldl max a := by
  induction l with
  | nil => intro a; exact le_refl a
  | cons x xs ih =>
    intro a
    exact le_trans (le_max_left a x) (ih (max a x))

/-- Helper: a `max`-fold is bounded below by every list element. -/
theorem foldl_max_ge_mem (l : List ℚ) :
    ∀ (a x : ℚ), x ∈ l → x ≤ l.foldl max a := by
  induction l with
  | nil => intro a x hx; cases hx
  | cons y ys ih =>
    intro a x hx
    rcases List.mem_cons.mp hx with h | h
    · subst h
      exact le_trans (le_max_right a x) (foldl_max_ge_init ys (max a x))
    · exact ih (max a y) x h

/-- Helper: a `max`-fold returns its initial value or a list element. -/
theorem foldl_max_mem (l : List ℚ) :
    ∀ a : ℚ, l.foldl max a = a ∨ l.foldl max a ∈ l := by
  induction l with
  | nil => intro a; exact Or.inl rfl
  | cons x xs ih =>
    intro a
    rcases ih (max a x) with h | h
    · rcases max_choice a x with hm | hm
      · exact Or.inl (by rw [List.foldl_cons, h, hm])
      · exact Or.inr (by rw [List.foldl_cons, h, hm]; exact List.mem_cons_self x xs)
    · exact Or.inr (List.mem_cons_of_mem x h)

/-- Helper: the loop body of `framerate_limits` is the componentwise
`min`/`max` step. -/
theorem framerate_step_eq (a b fr : ℚ) :
    ((if fr < a then fr else a : ℚ), (if b < fr then fr else b : ℚ)) =
      (min a fr, max b fr) := by
  rcases lt_or_le fr a with h | h
  · rcases lt_or_le b fr with h2 | h2 <;>
      simp [h, h2, min_eq_right h.le, max_def, not_le.mpr, le_of_lt]
  · rcases lt_or_le b fr with h2 | h2 <;>
      simp [not_lt.mpr h, h2, min_eq_left h, max_def, le_of_lt]

/-- Helper: the pair fold of `framerate_limits` computes a `min`-fold in its
first component and a `max`-fold in its second. -/
theorem framerate_fold_pair (l : List ℚ) : ∀ a b : ℚ,
    l.foldl (fun p fr => (if fr < p.1 then fr else p.1, if p.2 < fr then fr else p.2)) (a, b) =
      (l.foldl min a, l.foldl max b) := by
  induction l with
  | nil => intro a b; rfl
  | cons x xs ih =>
    intro a b
    rw [List.foldl_cons, List.foldl_cons, List.foldl_cons]
    rw [show ((if x < a then x else a : ℚ), (if b < x then x else b : ℚ)) =
      (min a x, max b x) from framerate_step_eq a b x]
    exact ih (min a x) (max b x)

/-- C10: on a non-empty framerate history, `framerate_limits` returns a pair
(ll, ul) where ll is the minimum and ul the maximum over the framerates
together with the goal framerate; hence ll ≤ goal ≤ ul and ll ≤ ul. -/
theorem framerate_limits_min_max (fs : List ℚ) (goal : ℚ) (h : fs ≠ []) :
    ∃ ll ul, framerate_limits fs goal = some (ll, ul) ∧
      ll ≤ goal ∧ goal ≤ ul ∧
      (∀ x ∈ fs, ll ≤ x ∧ x ≤ ul) ∧
      (ll = goal ∨ ll ∈ fs) ∧ (ul = goal ∨ ul ∈ fs) ∧ ll ≤ ul := by
  match fs, h with
  | f0 :: rest, _ =>
    refine ⟨(f0 :: rest).foldl min (min f0 goal),
      (f0 :: rest).foldl max (max goal f0), ?_, ?_, ?_, ?_, ?_, ?_, ?_⟩
    · rw [framerate_limits, framerate_fold_pair]
    · exact le_trans (foldl_min_le_init _ _) (min_le_right f0 goal)
    · exact le_trans (le_max_left goal f0) (foldl_max_ge_init _ _)
    · intro x hx
      exact ⟨foldl_min_le_mem _ _ x hx, foldl_max_ge_mem _ _ x hx⟩
    · rcases foldl_min_mem (f0 :: rest) (min f0 goal) with hm | hm
      · rcases min_choice f0 goal with hc | hc
        · exact Or.inr (by rw [hm, hc]; exact List.mem_cons_self f0 rest)
        · exact Or.inl (by rw [hm, hc])
      · exact Or.inr hm
    · rcases foldl_max_mem (f0 :: rest) (max goal f0) with hm | hm
      · rcases max_choice goal f0 with hc | hc
        · exact Or.inl (by rw [hm, hc])
        · exact Or.inr (by rw [hm, hc]; exact List.mem_cons_self f0 rest)
      · exact Or.inr hm
    · exact le_trans (le_trans (foldl_min_le_init _ _) (min_le_right f0 goal))
        (le_trans (le_max_left goal f0) (foldl_max_ge_init _ _))

/-- C10 witness: over framerates [3, 1, 5] with goal 2 the limits exist and
bracket every value. -/
theorem framerate_limits_min_max_witness :
    ∃ ll ul, framerate_limits [3, 1, 5] 2 = some (ll, ul) ∧
      ll ≤ 2 ∧ (2 : ℚ) ≤ ul ∧
      (∀ x ∈ [(3 : ℚ), 1, 5], ll ≤ x ∧ x ≤ ul) ∧
      (ll = 2 ∨ ll ∈ [(3 : ℚ), 1, 5]) ∧ (ul = 2 ∨ ul ∈ [(3 : ℚ), 1, 5]) ∧
      ll ≤ ul :=
  framerate_limits_min_max [3, 1, 5] 2 (by decide)
